import Mathlib

/-!
Verification of the crust connection-establishment core.

This file gives a shallow embedding of the three source files
`src/net/protocol_agnostic/addr.rs`, `src/net/peer/connect/connect.rs` and
`src/utp_connections.rs`, together with models of the external collaborators
they call into (the `url` crate's URL parser, the standard library's textual
IP-address parser, framed sockets, the NAT-traversal relay), and proves the
frozen claims about the natural-language specification against it.

Asynchronous streams are modelled denotationally: a stream is the finite list
of items it produces, in completion order, and an environment value supplies
the outcome of every primitive I/O action.
-/

namespace Crust

/-! ## Decimal and hexadecimal digit rendering

Model of the digit output of Rust's `Display` implementations for the integer
types (`u8`, `u16`): standard base-10 (resp. base-16, lowercase) digit
extraction by repeated division. A fuel argument keeps the recursion
structural; fuel `n` always suffices for the number `n` itself. -/

/-- Decimal digit character for a digit value below ten. -/
def digitChar : Nat → Char
  | 0 => '0' | 1 => '1' | 2 => '2' | 3 => '3' | 4 => '4'
  | 5 => '5' | 6 => '6' | 7 => '7' | 8 => '8' | 9 => '9'
  | _ => '?'

/-- Lowercase hexadecimal digit character for a digit value below sixteen. -/
def hexDigitChar : Nat → Char
  | 0 => '0' | 1 => '1' | 2 => '2' | 3 => '3' | 4 => '4'
  | 5 => '5' | 6 => '6' | 7 => '7' | 8 => '8' | 9 => '9'
  | 10 => 'a' | 11 => 'b' | 12 => 'c' | 13 => 'd' | 14 => 'e' | 15 => 'f'
  | _ => '?'

/-- Little-endian base-`b` digits of `n`, with structural fuel. -/
def digitsAuxFuel (b : Nat) : Nat → Nat → List Nat
  | _, 0 => []
  | 0, _ => []
  | fuel + 1, n => n % b :: digitsAuxFuel b fuel (n / b)

/-- Little-endian base-10 digits of `n` (empty for zero). -/
def natDigits (n : Nat) : List Nat :=
  digitsAuxFuel 10 n n

/-- Little-endian base-16 digits of `n` (empty for zero). -/
def natHexDigits (n : Nat) : List Nat :=
  digitsAuxFuel 16 n n

/-- Decimal rendering of a natural number, as Rust's integer Display writes it. -/
def natRepr (n : Nat) : List Char :=
  if n = 0 then ['0'] else ((natDigits n).map digitChar).reverse

/-- Lowercase hexadecimal rendering of a natural number without leading zeros. -/
def hexRepr (n : Nat) : List Char :=
  if n = 0 then ['0'] else ((natHexDigits n).map hexDigitChar).reverse

/-! ## The protocol-agnostic address data model (src/net/protocol_agnostic/addr.rs) -/

/-- Model of `std::net::IpAddr`: a V4 address is four octets, a V6 address is
eight 16-bit segments (a valid one has `segs.length = 8`). -/
inductive IpAddr where
  | v4 (a b c d : Nat)
  | v6 (segs : List Nat)
deriving DecidableEq, Repr

/-- Model of `std::net::SocketAddr`: an IP address plus a 16-bit port. -/
structure SocketAddr where
  ip : IpAddr
  port : Nat
deriving DecidableEq, Repr

/-- Protocol agnostic address, from addr.rs: a TCP or a uTP socket address. -/
inductive PaAddr where
  | Tcp (addr : SocketAddr)
  | Utp (addr : SocketAddr)
deriving DecidableEq, Repr

/-- Validity of the model values: octets are bytes, V6 has eight 16-bit
segments, ports are 16-bit. -/
def IpAddr.Valid : IpAddr → Prop
  | .v4 a b c d => a < 256 ∧ b < 256 ∧ c < 256 ∧ d < 256
  | .v6 segs => segs.length = 8 ∧ ∀ s ∈ segs, s < 65536

/-- A socket address is valid when its IP is valid and its port fits 16 bits. -/
def SocketAddr.Valid (sa : SocketAddr) : Prop :=
  sa.ip.Valid ∧ sa.port < 65536

/-- A protocol-agnostic address is valid when its socket address is. -/
def PaAddr.Valid : PaAddr → Prop
  | .Tcp a => a.Valid
  | .Utp a => a.Valid

/-- The underlying socket address of a `PaAddr` (the `inner` accessor). -/
def PaAddr.inner : PaAddr → SocketAddr
  | .Tcp a => a
  | .Utp a => a

/-! ## Address formatting (`impl fmt::Display`)

`PaAddr`'s Display writes `tcp://{addr}` or `utp://{addr}` where `{addr}` is
the standard library's `SocketAddr` Display: dotted decimal for V4, and for V6
the bracketed compressed hexadecimal form. -/

/-- Dotted-decimal rendering of four octets. -/
def ipv4Repr (a b c d : Nat) : List Char :=
  natRepr a ++ '.' :: (natRepr b ++ '.' :: (natRepr c ++ '.' :: natRepr d))

/-- Length of the run of zero segments starting at index `i`. -/
def zeroRunLenAt (segs : List Nat) (i : Nat) : Nat :=
  ((segs.drop i).takeWhile (fun s => s = 0)).length

/-- Start and length of the first longest run of zero segments (the span the
standard library's `Ipv6Addr` Display compresses). -/
def bestZeroRun (segs : List Nat) : Nat × Nat :=
  (List.range segs.length).foldl
    (fun best i =>
      if zeroRunLenAt segs i > best.2 then (i, zeroRunLenAt segs i) else best)
    (0, 0)

/-- Model of the standard library's Display for `Ipv6Addr` (as the crust era
shipped it): special cases for the unspecified address, the loopback address,
the IPv4-compatible and the IPv4-mapped forms, and otherwise hexadecimal
segments with the first longest run of more than one zero segment compressed
to a double colon. -/
def ipv6Repr (segs : List Nat) : List Char :=
  if segs = [0, 0, 0, 0, 0, 0, 0, 0] then [':', ':']
  else if segs = [0, 0, 0, 0, 0, 0, 0, 1] then [':', ':', '1']
  else
    match segs with
    | [0, 0, 0, 0, 0, 0, g, h] =>
      ':' :: ':' :: ipv4Repr (g / 256) (g % 256) (h / 256) (h % 256)
    | [0, 0, 0, 0, 0, 65535, g, h] =>
      ':' :: ':' :: ('f' :: 'f' :: 'f' :: 'f' :: ':' ::
        ipv4Repr (g / 256) (g % 256) (h / 256) (h % 256))
    | _ =>
      let run := bestZeroRun segs
      if run.2 > 1 then
        List.intercalate [':'] ((segs.take run.1).map hexRepr) ++
          ':' :: ':' :: List.intercalate [':'] ((segs.drop (run.1 + run.2)).map hexRepr)
      else
        List.intercalate [':'] (segs.map hexRepr)

/-- Model of the standard library's Display for `SocketAddr`: `a.b.c.d:port`
for V4 and `[v6]:port` for V6. -/
def socketAddrRepr (sa : SocketAddr) : List Char :=
  match sa.ip with
  | .v4 a b c d => ipv4Repr a b c d ++ ':' :: natRepr sa.port
  | .v6 segs => '[' :: (ipv6Repr segs ++ ']' :: ':' :: natRepr sa.port)

/-- Model of `impl fmt::Display for PaAddr` in addr.rs: writes `tcp://{}` or
`utp://{}` around the socket address. -/
def PaAddr.display : PaAddr → String
  | .Tcp addr => ⟨'t' :: 'c' :: 'p' :: ':' :: '/' :: '/' :: socketAddrRepr addr⟩
  | .Utp addr => ⟨'u' :: 't' :: 'p' :: ':' :: '/' :: '/' :: socketAddrRepr addr⟩

/-! ## Address parsing (`impl FromStr for PaAddr` and its collaborators)

addr.rs parses with `Url::parse`, reads `url.scheme()`, `url.host_str()` and
`url.port()`, and feeds the host string to `IpAddr::from_str`. The `url`
crate and the standard library's IP parser are external collaborators; they
are modelled below for the `scheme://host[:port]` shapes `PaAddr` deals in
(userinfo, paths, queries and percent-encoding are not modelled — `PaAddr`
formatting never produces them). Note that for a bracketed IPv6 authority the
`url` crate's `host_str` keeps the brackets in the serialized host. -/

/-- Decimal digit test. -/
def isDigitChar (c : Char) : Bool :=
  '0' ≤ c && c ≤ '9'

/-- Value of a decimal digit character. -/
def digitVal (c : Char) : Nat :=
  c.toNat - 48

/-- Parse a nonempty all-decimal-digit string as a natural number. -/
def parseNat? (l : List Char) : Option Nat :=
  if !l.isEmpty && l.all isDigitChar then
    some (l.foldl (fun a c => a * 10 + digitVal c) 0)
  else none

/-- Hexadecimal digit test. -/
def isHexChar (c : Char) : Bool :=
  isDigitChar c || ('a' ≤ c && c ≤ 'f') || ('A' ≤ c && c ≤ 'F')

/-- Value of a hexadecimal digit character. -/
def hexVal (c : Char) : Nat :=
  if isDigitChar c then c.toNat - 48
  else if 'a' ≤ c && c ≤ 'f' then c.toNat - 87
  else c.toNat - 55

/-- Split a character list on every occurrence of `c`. -/
def splitOnChar (c : Char) : List Char → List (List Char)
  | [] => [[]]
  | x :: xs =>
    if x = c then [] :: splitOnChar c xs
    else
      match splitOnChar c xs with
      | [] => [[x]]
      | g :: gs => (x :: g) :: gs

/-- Split a character list at the first occurrence of `c`, or `none`. -/
def splitFirst? (c : Char) : List Char → Option (List Char × List Char)
  | [] => none
  | x :: xs =>
    if x = c then some ([], xs)
    else (splitFirst? c xs).map (fun p => (x :: p.1, p.2))

/-- Model of one octet of the standard library's IPv4 parser: decimal digits,
no leading zero, value at most 255. (The parser's extra at-most-three-digits
cap rejects exactly the strings these checks already reject, so it is not
modelled separately.) -/
def parseOctet? (l : List Char) : Option Nat :=
  match parseNat? l with
  | none => none
  | some v =>
    if l.head? = some '0' && l.length != 1 then none
    else if v ≤ 255 then some v else none

/-- Model of the standard library's IPv4 textual grammar: four dot-separated
octets. -/
def ipv4FromStr? (l : List Char) : Option (Nat × Nat × Nat × Nat) :=
  match splitOnChar '.' l with
  | [a, b, c, d] => do
    let a1 ← parseOctet? a
    let b1 ← parseOctet? b
    let c1 ← parseOctet? c
    let d1 ← parseOctet? d
    pure (a1, b1, c1, d1)
  | _ => none

/-- Parse one 16-bit hexadecimal group (one to four hex digits). -/
def parseHexGroup? (l : List Char) : Option Nat :=
  if !l.isEmpty && l.length ≤ 4 && l.all isHexChar then
    some (l.foldl (fun a c => a * 16 + hexVal c) 0)
  else none

/-- Parse colon-split groups into 16-bit segments; when `v4Tail` is true the
final group may instead be an embedded dotted IPv4 address contributing two
segments. -/
def parseGroups? (v4Tail : Bool) : List (List Char) → Option (List Nat)
  | [] => some []
  | [g] =>
    match parseHexGroup? g with
    | some v => some [v]
    | none =>
      if v4Tail then
        match ipv4FromStr? g with
        | some (a, b, c, d) => some [a * 256 + b, c * 256 + d]
        | none => none
      else none
  | g :: g2 :: gs => do
    let v ← parseHexGroup? g
    let rest ← parseGroups? v4Tail (g2 :: gs)
    pure (v :: rest)

/-- Split at the first double colon, or `none` when there is none. -/
def splitDoubleColon? : List Char → Option (List Char × List Char)
  | [] => none
  | ':' :: ':' :: rest => some ([], rest)
  | c :: rest => (splitDoubleColon? rest).map (fun p => (c :: p.1, p.2))

/-- Model of the standard library's IPv6 textual grammar: colon-separated
16-bit hexadecimal groups, at most one double-colon abbreviation standing for
enough zero segments to reach eight, and an optional embedded dotted IPv4
tail. Returns the eight segments. -/
def ipv6FromStr? (l : List Char) : Option (List Nat) :=
  match splitDoubleColon? l with
  | none =>
    match parseGroups? true (splitOnChar ':' l) with
    | some segs => if segs.length = 8 then some segs else none
    | none => none
  | some (left, right) =>
    if (splitDoubleColon? right).isSome then none
    else do
      let ls ← if left.isEmpty then pure [] else parseGroups? false (splitOnChar ':' left)
      let rs ← if right.isEmpty then pure [] else parseGroups? true (splitOnChar ':' right)
      if ls.length + rs.length < 8 then
        pure (ls ++ List.replicate (8 - (ls.length + rs.length)) 0 ++ rs)
      else none

/-- Model of `IpAddr::from_str`: the IPv4 grammar, then the IPv6 grammar. -/
def ipAddrFromStr? (l : List Char) : Option IpAddr :=
  match ipv4FromStr? l with
  | some (a, b, c, d) => some (.v4 a b c d)
  | none => (ipv6FromStr? l).map IpAddr.v6

/-- Model of the `url` crate's `ParseError` variants addr.rs can surface. -/
inductive UrlParseError where
  | EmptyHost
  | InvalidPort
  | InvalidIpv6Address
  | RelativeUrlWithoutBase
  | Other
deriving DecidableEq, Repr

/-- Model of a parsed `Url`, restricted to the fields addr.rs reads: the
scheme, the serialized host as `host_str` returns it (brackets kept for an
IPv6 host), and the port. -/
structure Url where
  scheme : String
  host : Option (List Char)
  port : Option Nat
deriving DecidableEq, Repr

/-- Characters the URL grammar allows in a scheme after its first letter. -/
def isSchemeChar (c : Char) : Bool :=
  c.isAlpha || isDigitChar c || c = '+' || c = '-' || c = '.'

/-- Parse the optional port of an authority: an empty port is no port, and a
port value above 65535 is an invalid URL. -/
def parsePort? (l : List Char) : Except UrlParseError (Option Nat) :=
  if l.isEmpty then .ok none
  else
    match parseNat? l with
    | some v => if v ≤ 65535 then .ok (some v) else .error .InvalidPort
    | none => .error .InvalidPort

/-- Split an authority into its serialized host and optional port: a bracketed
IPv6 host runs to the first closing bracket and keeps its brackets, any other
host runs to the first colon. -/
def authorityHostPort? (auth : List Char) :
    Except UrlParseError (List Char × Option Nat) :=
  if auth.head? = some '[' then
    match splitFirst? ']' auth.tail with
    | none => .error .InvalidIpv6Address
    | some (inside, after) =>
      match after with
      | [] => .ok ('[' :: inside ++ [']'], none)
      | ':' :: ps => do
        let p ← parsePort? ps
        .ok ('[' :: inside ++ [']'], p)
      | _ => .error .Other
  else
    match splitFirst? ':' auth with
    | none => .ok (auth, none)
    | some (h, ps) => do
      let p ← parsePort? ps
      .ok (h, p)

/-- Model of `Url::parse` for a non-special scheme, restricted to
`scheme://host[:port]` inputs: the scheme runs to the first colon and is
lowercased; after a double slash the rest is an authority; without a double
slash the URL has an opaque path and no host. -/
def urlParse? (l : List Char) : Except UrlParseError Url :=
  match splitFirst? ':' l with
  | none => .error .RelativeUrlWithoutBase
  | some (schemeChars, rest) =>
    if schemeChars.isEmpty
        || !(schemeChars.head?.elim false Char.isAlpha)
        || !schemeChars.all isSchemeChar then
      .error .RelativeUrlWithoutBase
    else
      let scheme : String := ⟨schemeChars.map Char.toLower⟩
      match rest with
      | '/' :: '/' :: auth =>
        match authorityHostPort? auth with
        | .error e => .error e
        | .ok (h, p) => .ok { scheme := scheme, host := some h, port := p }
      | _ => .ok { scheme := scheme, host := none, port := none }

/-- The `ParseError` enum of addr.rs. -/
inductive ParseError where
  | MalformedUrl (e : UrlParseError)
  | MalformedHost
  | UnknownScheme (s : String)
  | MissingPort
deriving DecidableEq, Repr

/-- Model of `addr_from_url` in addr.rs: a missing host is a malformed URL
with an empty host, a host the IP parser rejects is a malformed host, a
missing port is `MissingPort`. -/
def addrFromUrl (url : Url) : Except ParseError SocketAddr :=
  match url.host with
  | none => .error (.MalformedUrl .EmptyHost)
  | some host =>
    match ipAddrFromStr? host with
    | none => .error .MalformedHost
    | some ip =>
      match url.port with
      | some port => .ok ⟨ip, port⟩
      | none => .error .MissingPort

/-- Model of `impl FromStr for PaAddr` in addr.rs: parse the URL, then match
the scheme against `tcp` and `utp`. -/
def PaAddr.fromStr (s : String) : Except ParseError PaAddr :=
  match urlParse? s.data with
  | .error e => .error (.MalformedUrl e)
  | .ok url =>
    if url.scheme = "tcp" then (addrFromUrl url).map PaAddr.Tcp
    else if url.scheme = "utp" then (addrFromUrl url).map PaAddr.Utp
    else .error (.UnknownScheme url.scheme)

/-! ## The connection core (src/net/peer/connect/connect.rs)

The connect pipeline is asynchronous stream code. It is embedded
denotationally: a stream is the finite list of the items it produces, in
completion order, and an environment supplies the outcome of every primitive
I/O action (the TCP connects, the framed sends and receives, the rendezvous
relay send and its paired oneshot receive). A `select` of two streams is an
interleaving of the two lists, driven by an environment-chosen list of
booleans, and `first_ok` resolves to the first successful item or to the list
of all errors. -/

/-- Model of crust's `NameHash` network identifier: opaque, compared by
equality and carried in errors. -/
abbrev NameHash := Nat

/-- Opaque model of crust's `SocketError`. -/
abbrev SocketErr := Nat

/-- Opaque model of `std::io::Error`. -/
abbrev IoErr := Nat

/-- Opaque model of `p2p::TcpRendezvousConnectError`. -/
abbrev RendezvousErr := Nat

/-- The `SingleConnectionError` enum of connect.rs: one failure of one
connection attempt. -/
inductive SingleConnectionError where
  | Io (e : IoErr)
  | Socket (e : SocketErr)
  | ConnectionDropped
  | InvalidUid (formatted_received_uid formatted_expected_uid : String)
  | InvalidNameHash (name_hash : NameHash)
  | UnexpectedMessage
  | TimedOut
  | DeadChannel
  | RendezvousConnect (e : RendezvousErr)
deriving DecidableEq, Repr

/-- The `ConnectError` enum of connect.rs: the failure of a whole `connect`
call. -/
inductive ConnectError where
  | RequestedConnectToSelf
  | Io (e : IoErr)
  | ChooseConnection (e : SocketErr)
  | AllConnectionsFailed (v : List SingleConnectionError)
  | TimedOut
deriving DecidableEq, Repr

/-- The `ConnectRequest` handshake payload: claimed uid and name hash. -/
structure ConnectRequest (UID : Type) where
  uid : UID
  name_hash : NameHash
deriving DecidableEq, Repr

/-- The handshake message envelope: connect.rs only distinguishes the
`Connect` variant from every other message kind, which it treats as
unexpected. -/
inductive HandshakeMessage (UID : Type) where
  | Connect (req : ConnectRequest UID)
  | OtherKind
deriving DecidableEq, Repr

/-- Equality of `Except` values is decidable when both component types have
decidable equality. -/
instance {ε α : Type} [DecidableEq ε] [DecidableEq α] : DecidableEq (Except ε α) :=
  fun x y =>
    match x, y with
    | .ok a, .ok b =>
      if h : a = b then .isTrue (by rw [h])
      else .isFalse (by intro hh; cases hh; exact h rfl)
    | .error a, .error b =>
      if h : a = b then .isTrue (by rw [h])
      else .isFalse (by intro hh; cases hh; exact h rfl)
    | .ok _, .error _ => .isFalse (by intro hh; cases hh)
    | .error _, .ok _ => .isFalse (by intro hh; cases hh)

/-- One raw outgoing connection (a connected `TcpStream`), bundled with the
outcomes the environment assigns to the handshake I/O performed on it: the
send of our connect request and the wait for the single reply (`none` means
the connection closed with no reply). -/
structure RawConn (UID : Type) where
  sockId : Nat
  sendOutcome : Except SocketErr Unit
  recvOutcome : Except SocketErr (Option (HandshakeMessage UID))
deriving DecidableEq

/-- One item of the demultiplexer's incoming stream: a framed channel already
carrying its first message, bundled with the outcome the environment assigns
to sending the handshake reply on it. -/
structure IncomingConn (UID : Type) where
  sockId : Nat
  request : ConnectRequest UID
  replySendOutcome : Except SocketErr Unit
deriving DecidableEq

/-- Model of `P2pConnectionInfo`: the rendezvous relay endpoints, as the
outcomes of the two operations connect.rs performs on them — the relay send
of the remote metadata (an error means the relay is already closed) and the
oneshot receive of the rendezvous result (an error means the sender was
cancelled). -/
structure P2pConnectionInfo (UID : Type) where
  sendOutcome : Except Unit Unit
  connRxOutcome : Except Unit (Except SingleConnectionError (RawConn UID))
deriving DecidableEq

/-- `PrivConnectionInfo`: our id and our optional rendezvous endpoints. -/
structure PrivConnectionInfo (UID : Type) where
  id : UID
  p2p_conn_info : Option (P2pConnectionInfo UID)

/-- `PubConnectionInfo`: the remote id, its direct addresses and its optional
raw rendezvous metadata bytes. -/
structure PubConnectionInfo (UID : Type) where
  id : UID
  for_direct : List SocketAddr
  p2p_conn_info : Option (List Nat)

/-- The eventual behaviour of a future: it never completes, or it completes
with a result. -/
inductive FutureResult (E A : Type) where
  | pending
  | ready (r : Except E A)
deriving DecidableEq

/-- `Future::into_stream`: a never-completing future contributes no item, a
completing one contributes exactly its result. -/
def futureIntoStream {E A : Type} : FutureResult E A → List (Except E A)
  | .pending => []
  | .ready r => [r]

/-- Model of `Stream::select`: an interleaving of two completion-ordered
streams, driven by a list of choices (`true` takes from the first stream);
once either stream is exhausted the other is drained. -/
def selectStream {α : Type} : List Bool → List α → List α → List α
  | _, [], ys => ys
  | _, x :: xs, [] => x :: xs
  | [], x :: xs, y :: ys => x :: xs ++ y :: ys
  | true :: bs, x :: xs, y :: ys => x :: selectStream bs xs (y :: ys)
  | false :: bs, x :: xs, y :: ys => y :: selectStream bs (x :: xs) ys

/-- Model of future_utils' `first_ok`: resolve with the first successful item
of the stream, or, when the stream exhausts with no success, with the list of
every error in completion order. -/
def first_ok {E A : Type} : List (Except E A) → Except (List E) A
  | [] => .error []
  | .ok a :: _ => .ok a
  | .error e :: rest =>
    match first_ok rest with
    | .ok a => .ok a
    | .error es => .error (e :: es)

variable {UID : Type} [DecidableEq UID] [ToString UID]

/-- Model of `validate_connect_request` in connect.rs: reject an unexpected
uid first (carrying both formatted uids), then a mismatched name hash
(carrying the received one). -/
def validate_connect_request (expected_uid : UID) (our_name_hash : NameHash)
    (connect_request : ConnectRequest UID) : Except SingleConnectionError Unit :=
  if connect_request.uid ≠ expected_uid then
    .error (.InvalidUid (toString connect_request.uid) (toString expected_uid))
  else if our_name_hash ≠ connect_request.name_hash then
    .error (.InvalidNameHash connect_request.name_hash)
  else .ok ()

/-- The messages a handshaker sent on one channel, and how many messages it
waited to receive on it. -/
structure HandshakeEffects (UID : Type) where
  sent : List (HandshakeMessage UID)
  receives : Nat
deriving DecidableEq

/-- Model of one connection's pass through `handshake_outgoing_connections`:
wrap the stream, send our connect request, await exactly one reply, and map
the reply as connect.rs does — no reply is `ConnectionDropped`, a connect
message is validated and on success yields the socket with the received uid,
any other message kind is `UnexpectedMessage`. Also returns the I/O effects
performed on the channel. -/
def handshakeOutgoingOne (our_connect_request : ConnectRequest UID) (their_id : UID)
    (conn : RawConn UID) :
    Except SingleConnectionError (Nat × UID) × HandshakeEffects UID :=
  match conn.sendOutcome with
  | .error e => (.error (.Socket e), ⟨[.Connect our_connect_request], 0⟩)
  | .ok _ =>
    match conn.recvOutcome with
    | .error e => (.error (.Socket e), ⟨[.Connect our_connect_request], 1⟩)
    | .ok none => (.error .ConnectionDropped, ⟨[.Connect our_connect_request], 1⟩)
    | .ok (some (.Connect connect_request)) =>
      match validate_connect_request their_id our_connect_request.name_hash connect_request with
      | .error e => (.error e, ⟨[.Connect our_connect_request], 1⟩)
      | .ok _ => (.ok (conn.sockId, connect_request.uid), ⟨[.Connect our_connect_request], 1⟩)
    | .ok (some .OtherKind) =>
      (.error .UnexpectedMessage, ⟨[.Connect our_connect_request], 1⟩)

/-- Model of `handshake_outgoing_connections`: each raw connection of the
stream is handshaken independently; stream-level errors pass through. -/
def handshake_outgoing_connections
    (connections : List (Except SingleConnectionError (RawConn UID)))
    (our_connect_request : ConnectRequest UID) (their_id : UID) :
    List (Except SingleConnectionError (Nat × UID)) :=
  connections.map (fun c =>
    c.bind (fun conn => (handshakeOutgoingOne our_connect_request their_id conn).1))

/-- Model of one item's pass through `handshake_incoming_connections`:
validate the embedded request; on success send our connect request as the
reply (a send failure is a `Socket` error) and yield the socket with the
expected id; on failure surface the validator's error and send nothing. The
second component lists the messages sent on the channel. -/
def handshakeIncomingOne (our_connect_request : ConnectRequest UID) (their_id : UID)
    (conn : IncomingConn UID) :
    Except SingleConnectionError (Nat × UID) × List (HandshakeMessage UID) :=
  match validate_connect_request their_id our_connect_request.name_hash conn.request with
  | .error e => (.error e, [])
  | .ok _ =>
    match conn.replySendOutcome with
    | .error e => (.error (.Socket e), [.Connect our_connect_request])
    | .ok _ => (.ok (conn.sockId, their_id), [.Connect our_connect_request])

/-- Model of `handshake_incoming_connections` over the demultiplexer's
stream. -/
def handshake_incoming_connections (our_connect_request : ConnectRequest UID)
    (conn_rx : List (IncomingConn UID)) (their_id : UID) :
    List (Except SingleConnectionError (Nat × UID)) :=
  conn_rx.map (fun c => (handshakeIncomingOne our_connect_request their_id c).1)

/-- Model of `connect_p2p`: with either side's rendezvous info absent the
future never completes; otherwise send the remote metadata over the relay
(a failed send is `DeadChannel`), then await the oneshot receiver (a
cancelled receiver is `DeadChannel`), surfacing its payload as is. -/
def connect_p2p (our_conn_info : Option (P2pConnectionInfo UID))
    (their_conn_info : Option (List Nat)) :
    FutureResult SingleConnectionError (RawConn UID) :=
  match our_conn_info, their_conn_info with
  | some info, some _raw_info =>
    match info.sendOutcome with
    | .error _ => .ready (.error .DeadChannel)
    | .ok _ =>
      match info.connRxOutcome with
      | .error _ => .ready (.error .DeadChannel)
      | .ok res => .ready res
  | _, _ => .pending

/-- The raw metadata payloads `connect_p2p` sends over the relay: exactly the
remote metadata when both sides have rendezvous info, nothing otherwise. -/
def connectP2pSends (our_conn_info : Option (P2pConnectionInfo UID))
    (their_conn_info : Option (List Nat)) : List (List Nat) :=
  match our_conn_info, their_conn_info with
  | some _, some raw_info => [raw_info]
  | _, _ => []

/-- Model of `connect_directly`: every address is attempted concurrently and
the stream yields each attempt's outcome in completion order (the list passed
here), I/O failures mapped to `Io`. -/
def connect_directly (completion_order : List SocketAddr)
    (outcome : SocketAddr → Except IoErr (RawConn UID)) :
    List (Except SingleConnectionError (RawConn UID)) :=
  completion_order.map (fun a => (outcome a).mapError SingleConnectionError.Io)

/-- The environment of one `connect` call: the completion order of the direct
attempts (a permutation of the addresses), the outcome of each direct
attempt, the two interleaving schedules of the stream selects, and the
peer-construction collaborator `peer::from_handshaken_socket`. -/
structure ConnectEnv (UID : Type) where
  directOrder : List SocketAddr
  directOutcome : SocketAddr → Except IoErr (RawConn UID)
  rawSched : List Bool
  finalSched : List Bool
  fromHandshakenSocket : Nat → UID → Except IoErr (Nat × UID)

/-- The merged validated stream `connect` races: outgoing handshakes over the
select of the direct and rendezvous raw streams, selected against the
incoming handshakes. -/
def mergedAttempts (name_hash : NameHash) (our_info : PrivConnectionInfo UID)
    (their_info : PubConnectionInfo UID) (peer_rx : List (IncomingConn UID))
    (env : ConnectEnv UID) : List (Except SingleConnectionError (Nat × UID)) :=
  let our_connect_request : ConnectRequest UID := ⟨our_info.id, name_hash⟩
  selectStream env.finalSched
    (handshake_outgoing_connections
      (selectStream env.rawSched
        (connect_directly env.directOrder env.directOutcome)
        (futureIntoStream (connect_p2p our_info.p2p_conn_info their_info.p2p_conn_info)))
      our_connect_request their_info.id)
    (handshake_incoming_connections our_connect_request peer_rx their_info.id)

/-- Model of `connect` in connect.rs: fail immediately on a self-connect,
otherwise race the merged stream with `first_ok`, map stream exhaustion to
`AllConnectionsFailed`, and hand the winner to the peer-construction
collaborator, whose failure is an `Io` error. -/
def connect (name_hash : NameHash) (our_info : PrivConnectionInfo UID)
    (their_info : PubConnectionInfo UID) (peer_rx : List (IncomingConn UID))
    (env : ConnectEnv UID) : Except ConnectError (Nat × UID) :=
  if our_info.id = their_info.id then .error .RequestedConnectToSelf
  else
    match first_ok (mergedAttempts name_hash our_info their_info peer_rx env) with
    | .error errs => .error (.AllConnectionsFailed errs)
    | .ok (socket, their_uid) =>
      (env.fromHandshakenSocket socket their_uid).mapError ConnectError.Io

/-- The I/O `connect` initiates: nothing at all on a self-connect (the
function returns before building any stream), otherwise one TCP connect per
direct address plus, when both sides carry rendezvous info, the relay send of
the remote metadata; the handshake traffic on the resulting connections is
accounted per channel by the handshaker models. -/
inductive IoAction where
  | directAttempt (addr : SocketAddr)
  | relaySend (raw_info : List Nat)
deriving DecidableEq

/-- The list of I/O actions a `connect` call initiates. -/
def connectInitiatedIo (our_info : PrivConnectionInfo UID)
    (their_info : PubConnectionInfo UID) : List IoAction :=
  if our_info.id = their_info.id then []
  else
    their_info.for_direct.map IoAction.directAttempt ++
      (connectP2pSends our_info.p2p_conn_info their_info.p2p_conn_info).map IoAction.relaySend

/-- Model of `start_rendezvous_connect`: the spawned task runs the rendezvous
protocol, maps its failure into `RendezvousConnect`, publishes the single
outcome on the oneshot channel, and swallows a publish failure (the consumer
went away) through `or_else`. The first component is the list of values the
task publishes on the channel, the second the task's own final result. -/
def start_rendezvous_connect (protocol_outcome : Except RendezvousErr Nat)
    (receiver_alive : Bool) :
    List (Except SingleConnectionError Nat) × Except Unit Unit :=
  let result := protocol_outcome.mapError SingleConnectionError.RendezvousConnect
  let send_result : Except Unit Unit :=
    if receiver_alive then .ok () else .error ()
  ([result],
    match send_result with
    | .ok _ => .ok ()
    | .error _ => .ok ())

/-! ## Digit rendering lemmas -/

theorem digitsAuxFuel_eq_digits : ∀ fuel n : Nat, n ≤ fuel →
    digitsAuxFuel 10 fuel n = Nat.digits 10 n := by
  intro fuel
  induction fuel with
  | zero =>
    intro n hn
    have : n = 0 := Nat.le_zero.mp hn
    subst this
    simp [digitsAuxFuel]
  | succ f ih =>
    intro n hn
    match n with
    | 0 => simp [digitsAuxFuel]
    | m + 1 =>
      have hdiv : (m + 1) / 10 ≤ f := by
        have := Nat.div_lt_self (Nat.succ_pos m) (by norm_num : 1 < 10)
        omega
      show (m + 1) % 10 :: digitsAuxFuel 10 f ((m + 1) / 10) = _
      rw [ih _ hdiv, Nat.digits_def' (by norm_num : (1 : Nat) < 10) (Nat.succ_pos m)]

theorem natDigits_eq_digits (n : Nat) : natDigits n = Nat.digits 10 n :=
  digitsAuxFuel_eq_digits n n le_rfl

theorem digitVal_digitChar {d : Nat} (h : d < 10) : digitVal (digitChar d) = d := by
  interval_cases d <;> rfl

theorem isDigitChar_digitChar {d : Nat} (h : d < 10) : isDigitChar (digitChar d) = true := by
  interval_cases d <;> rfl

theorem digitChar_ne_zero_char {d : Nat} (h : d < 10) (h0 : d ≠ 0) : digitChar d ≠ '0' := by
  interval_cases d
  · exact absurd rfl h0
  all_goals decide

theorem natRepr_ne_nil (n : Nat) : natRepr n ≠ [] := by
  unfold natRepr
  split
  · simp
  · have : Nat.digits 10 n ≠ [] :=
      Nat.digits_ne_nil_iff_ne_zero.mpr (by assumption)
    simp [natDigits_eq_digits, this]

theorem mem_natRepr_isDigit {c : Char} {n : Nat} (h : c ∈ natRepr n) :
    isDigitChar c = true := by
  unfold natRepr at h
  split at h
  · simp at h
    subst h
    rfl
  · rw [List.mem_reverse] at h
    obtain ⟨d, hd, rfl⟩ := List.mem_map.mp h
    rw [natDigits_eq_digits] at hd
    exact isDigitChar_digitChar (Nat.digits_lt_base (by norm_num) hd)

theorem foldr_digits_eq_ofDigits :
    ∀ L : List Nat, (∀ d ∈ L, d < 10) →
      List.foldr (fun d a => a * 10 + digitVal (digitChar d)) 0 L = Nat.ofDigits 10 L := by
  intro L
  induction L with
  | nil => intro _; simp [Nat.ofDigits_nil]
  | cons d L ih =>
    intro h
    rw [List.foldr_cons, ih (fun x hx => h x (List.mem_cons_of_mem _ hx)),
      digitVal_digitChar (h d (List.mem_cons_self _ _)), Nat.ofDigits_cons]
    ring

theorem parseNat?_natRepr (n : Nat) : parseNat? (natRepr n) = some n := by
  by_cases h : n = 0
  · subst h; rfl
  · have hne : natRepr n ≠ [] := natRepr_ne_nil n
    have hall : (natRepr n).all isDigitChar = true :=
      List.all_eq_true.mpr fun c hc => mem_natRepr_isDigit hc
    unfold parseNat?
    rw [if_pos (by simp [hall, List.isEmpty_iff, hne])]
    congr 1
    have hrepr : natRepr n = ((natDigits n).map digitChar).reverse := if_neg h
    rw [hrepr, List.foldl_reverse, List.foldr_map, natDigits_eq_digits,
      foldr_digits_eq_ofDigits _ fun d hd => Nat.digits_lt_base (by norm_num) hd,
      Nat.ofDigits_digits]

theorem natRepr_head_ne_zero_char {n : Nat} (h : n ≠ 0) :
    (natRepr n).head? ≠ some '0' := by
  have hne : Nat.digits 10 n ≠ [] := Nat.digits_ne_nil_iff_ne_zero.mpr h
  unfold natRepr
  rw [if_neg h, List.head?_reverse, List.getLast?_map, natDigits_eq_digits,
    List.getLast?_eq_getLast _ hne]
  have hlt : (Nat.digits 10 n).getLast hne < 10 :=
    Nat.digits_lt_base (by norm_num) (List.getLast_mem hne)
  have hz : (Nat.digits 10 n).getLast hne ≠ 0 := Nat.getLast_digit_ne_zero 10 h
  simp only [Option.map_some']
  intro hc
  exact digitChar_ne_zero_char hlt hz (Option.some.inj hc)

theorem parseOctet?_natRepr {n : Nat} (h : n ≤ 255) : parseOctet? (natRepr n) = some n := by
  by_cases h0 : n = 0
  · subst h0; rfl
  · have hcond : ((natRepr n).head? = some '0' && (natRepr n).length != 1) = false := by
      have hh := natRepr_head_ne_zero_char h0
      simp [hh]
    unfold parseOctet?
    rw [parseNat?_natRepr]
    simp only [hcond, Bool.false_eq_true, if_false, if_pos h]

/-! ## Splitting lemmas -/

theorem splitOnChar_of_not_mem {c : Char} : ∀ {l : List Char}, c ∉ l → splitOnChar c l = [l]
  | [], _ => rfl
  | x :: xs, h => by
    have hx : ¬ x = c := fun hh => h (hh ▸ List.mem_cons_self _ _)
    have hxs : c ∉ xs := fun hh => h (List.mem_cons_of_mem _ hh)
    simp only [splitOnChar, if_neg hx, splitOnChar_of_not_mem hxs]

theorem splitOnChar_append {c : Char} :
    ∀ {xs : List Char} (ys : List Char), c ∉ xs →
      splitOnChar c (xs ++ c :: ys) = xs :: splitOnChar c ys
  | [], ys, _ => by simp [splitOnChar]
  | x :: xs, ys, h => by
    have hx : ¬ x = c := fun hh => h (hh ▸ List.mem_cons_self _ _)
    have hxs : c ∉ xs := fun hh => h (List.mem_cons_of_mem _ hh)
    rw [List.cons_append, splitOnChar, if_neg hx, splitOnChar_append ys hxs]

theorem splitFirst?_of_not_mem {c : Char} : ∀ {l : List Char}, c ∉ l → splitFirst? c l = none
  | [], _ => rfl
  | x :: xs, h => by
    have hx : ¬ x = c := fun hh => h (hh ▸ List.mem_cons_self _ _)
    have hxs : c ∉ xs := fun hh => h (List.mem_cons_of_mem _ hh)
    simp only [splitFirst?, if_neg hx, splitFirst?_of_not_mem hxs, Option.map_none']

theorem splitFirst?_append {c : Char} :
    ∀ {xs : List Char} (ys : List Char), c ∉ xs →
      splitFirst? c (xs ++ c :: ys) = some (xs, ys)
  | [], ys, _ => by simp [splitFirst?]
  | x :: xs, ys, h => by
    have hx : ¬ x = c := fun hh => h (hh ▸ List.mem_cons_self _ _)
    have hxs : c ∉ xs := fun hh => h (List.mem_cons_of_mem _ hh)
    rw [List.cons_append, splitFirst?, if_neg hx, splitFirst?_append ys hxs,
      Option.map_some']

/-! ## IPv4 round-trip lemmas -/

theorem not_mem_natRepr {c : Char} (hc : isDigitChar c = false) (n : Nat) :
    c ∉ natRepr n := fun h => by
  rw [mem_natRepr_isDigit h] at hc
  exact Bool.noConfusion hc

theorem ipv4FromStr?_repr {a b c d : Nat}
    (ha : a ≤ 255) (hb : b ≤ 255) (hc : c ≤ 255) (hd : d ≤ 255) :
    ipv4FromStr? (ipv4Repr a b c d) = some (a, b, c, d) := by
  have hdot : ∀ n : Nat, '.' ∉ natRepr n := not_mem_natRepr rfl
  unfold ipv4FromStr? ipv4Repr
  rw [splitOnChar_append _ (hdot a), splitOnChar_append _ (hdot b),
    splitOnChar_append _ (hdot c), splitOnChar_of_not_mem (hdot d)]
  simp [parseOctet?_natRepr, ha, hb, hc, hd]

theorem colon_not_mem_ipv4Repr {a b c d : Nat} : ':' ∉ ipv4Repr a b c d := by
  intro h
  have hcolon : isDigitChar ':' = false := rfl
  simp only [ipv4Repr, List.mem_append, List.mem_cons] at h
  rcases h with h | h | h | h | h | h | h
  · exact not_mem_natRepr hcolon a h
  · exact absurd h (by decide)
  · exact not_mem_natRepr hcolon b h
  · exact absurd h (by decide)
  · exact not_mem_natRepr hcolon c h
  · exact absurd h (by decide)
  · exact not_mem_natRepr hcolon d h

theorem ipv4Repr_head_digit (a b c d : Nat) :
    ∃ ch t, ipv4Repr a b c d = ch :: t ∧ isDigitChar ch = true := by
  obtain ⟨ch, t, hch⟩ := List.exists_cons_of_ne_nil (natRepr_ne_nil a)
  refine ⟨ch, t ++ '.' :: (natRepr b ++ '.' :: (natRepr c ++ '.' :: natRepr d)), ?_, ?_⟩
  · rw [ipv4Repr, hch, List.cons_append]
  · exact mem_natRepr_isDigit (hch ▸ List.mem_cons_self _ _)

/-! ## URL-level lemmas -/

theorem parsePort?_natRepr {p : Nat} (hp : p ≤ 65535) :
    parsePort? (natRepr p) = .ok (some p) := by
  unfold parsePort?
  rw [if_neg (by simp [List.isEmpty_iff, natRepr_ne_nil p]), parseNat?_natRepr]
  simp [hp]

theorem authorityHostPort?_v4 {a b c d p : Nat} (hp : p ≤ 65535) :
    authorityHostPort? (ipv4Repr a b c d ++ ':' :: natRepr p) =
      .ok (ipv4Repr a b c d, some p) := by
  obtain ⟨ch, t, hch, hdig⟩ := ipv4Repr_head_digit a b c d
  have hhead : ¬ (ipv4Repr a b c d ++ ':' :: natRepr p).head? = some '[' := by
    rw [hch, List.cons_append, List.head?_cons]
    intro hh
    rw [Option.some.inj hh] at hdig
    exact Bool.noConfusion hdig
  unfold authorityHostPort?
  rw [if_neg hhead, splitFirst?_append _ colon_not_mem_ipv4Repr]
  simp only [parsePort?_natRepr hp]
  rfl

theorem urlParse?_scheme_tcp {auth host : List Char} {p : Option Nat}
    (hh : authorityHostPort? auth = .ok (host, p)) :
    urlParse? ('t' :: 'c' :: 'p' :: ':' :: '/' :: '/' :: auth) =
      .ok { scheme := "tcp", host := some host, port := p } := by
  have hsplit : splitFirst? ':' ('t' :: 'c' :: 'p' :: ':' :: '/' :: '/' :: auth) =
      some (['t', 'c', 'p'], '/' :: '/' :: auth) := rfl
  unfold urlParse?
  rw [hsplit]
  simp only [hh]
  rfl

theorem urlParse?_scheme_utp {auth host : List Char} {p : Option Nat}
    (hh : authorityHostPort? auth = .ok (host, p)) :
    urlParse? ('u' :: 't' :: 'p' :: ':' :: '/' :: '/' :: auth) =
      .ok { scheme := "utp", host := some host, port := p } := by
  have hsplit : splitFirst? ':' ('u' :: 't' :: 'p' :: ':' :: '/' :: '/' :: auth) =
      some (['u', 't', 'p'], '/' :: '/' :: auth) := rfl
  unfold urlParse?
  rw [hsplit]
  simp only [hh]
  rfl

/-! ## Claim C1 and C2 theorems -/

/-- Claim C1: with equal local and remote ids, `connect` returns
`RequestedConnectToSelf` immediately and initiates no I/O (the embedding is
pure, so the inputs are untouched by construction). -/
theorem claim_C1 {UID : Type} [DecidableEq UID] [ToString UID]
    (name_hash : NameHash) (our_info : PrivConnectionInfo UID)
    (their_info : PubConnectionInfo UID) (peer_rx : List (IncomingConn UID))
    (env : ConnectEnv UID) (h : our_info.id = their_info.id) :
    connect name_hash our_info their_info peer_rx env = .error .RequestedConnectToSelf
    ∧ connectInitiatedIo our_info their_info = [] := by
  constructor
  · simp [connect, h]
  · simp [connectInitiatedIo, h]

/-- Witness for claim C1 at a concrete self-connect call. -/
theorem claim_C1_witness :
    ((⟨1, none⟩ : PrivConnectionInfo Nat).id = (⟨1, [], none⟩ : PubConnectionInfo Nat).id)
    ∧ (connect 0 (⟨1, none⟩ : PrivConnectionInfo Nat) ⟨1, [], none⟩ []
          ⟨[], fun _ => .error 0, [], [], fun s u => .ok (s, u)⟩ =
        .error .RequestedConnectToSelf
      ∧ connectInitiatedIo (⟨1, none⟩ : PrivConnectionInfo Nat) ⟨1, [], none⟩ = []) :=
  ⟨rfl, claim_C1 0 ⟨1, none⟩ ⟨1, [], none⟩ []
    ⟨[], fun _ => .error 0, [], [], fun s u => .ok (s, u)⟩ rfl⟩

/-- Claim C2: the validator accepts exactly when both the uid and the network
id match; a wrong uid yields `InvalidUid` carrying both formatted ids, a
right uid with a wrong network id yields `InvalidNameHash` carrying the
received value. -/
theorem claim_C2 {UID : Type} [DecidableEq UID] [ToString UID]
    (expected_id : UID) (expected_network_id : NameHash) (request : ConnectRequest UID) :
    (validate_connect_request expected_id expected_network_id request = .ok () ↔
      request.uid = expected_id ∧ request.name_hash = expected_network_id)
    ∧ (request.uid ≠ expected_id →
        validate_connect_request expected_id expected_network_id request =
          .error (.InvalidUid (toString request.uid) (toString expected_id)))
    ∧ (request.uid = expected_id → request.name_hash ≠ expected_network_id →
        validate_connect_request expected_id expected_network_id request =
          .error (.InvalidNameHash request.name_hash)) := by
  unfold validate_connect_request
  refine ⟨⟨?_, ?_⟩, ?_, ?_⟩
  · intro hok
    by_cases h1 : request.uid = expected_id
    · by_cases h2 : request.name_hash = expected_network_id
      · exact ⟨h1, h2⟩
      · rw [if_neg (by simp [h1]), if_pos (Ne.symm h2)] at hok
        exact Except.noConfusion hok
    · rw [if_pos h1] at hok
      exact Except.noConfusion hok
  · rintro ⟨h1, h2⟩
    rw [if_neg (by simp [h1]), if_neg (by simp [h2])]
  · intro h1
    rw [if_pos h1]
  · intro h1 h2
    rw [if_neg (by simp [h1]), if_pos (Ne.symm h2)]

/-- Witness for claim C2 at a concrete mismatched uid. -/
theorem claim_C2_witness :
    ((⟨4, 7⟩ : ConnectRequest Nat).uid ≠ 5)
    ∧ validate_connect_request 5 7 (⟨4, 7⟩ : ConnectRequest Nat) =
        .error (.InvalidUid (toString (4 : Nat)) (toString (5 : Nat))) :=
  ⟨by decide, (claim_C2 5 7 ⟨4, 7⟩).2.1 (by decide)⟩

/-! ## Claim C3 theorems -/

theorem string_mk_data (l : List Char) : (⟨l⟩ : String).data = l := rfl

/-- Claim C3 (amended): formatting then parsing is the identity for valid
addresses whose socket address is IPv4, for both transport tags. (The claim
as frozen also covers IPv6 socket addresses; those fail to round-trip, see
the counterexample.) -/
theorem claim_C3_v4_roundtrip (a b c d p : Nat)
    (ha : a < 256) (hb : b < 256) (hc : c < 256) (hd : d < 256) (hp : p < 65536) :
    PaAddr.fromStr (PaAddr.display (.Tcp ⟨.v4 a b c d, p⟩)) = .ok (.Tcp ⟨.v4 a b c d, p⟩)
    ∧ PaAddr.fromStr (PaAddr.display (.Utp ⟨.v4 a b c d, p⟩)) =
        .ok (.Utp ⟨.v4 a b c d, p⟩) := by
  have ha' : a ≤ 255 := by omega
  have hb' : b ≤ 255 := by omega
  have hc' : c ≤ 255 := by omega
  have hd' : d ≤ 255 := by omega
  have hp' : p ≤ 65535 := by omega
  have hauth := authorityHostPort?_v4 (a := a) (b := b) (c := c) (d := d) hp'
  constructor
  · have hdisp : PaAddr.display (.Tcp ⟨.v4 a b c d, p⟩) =
        ⟨'t' :: 'c' :: 'p' :: ':' :: '/' :: '/' ::
          (ipv4Repr a b c d ++ ':' :: natRepr p)⟩ := rfl
    rw [PaAddr.fromStr, hdisp, string_mk_data, urlParse?_scheme_tcp hauth]
    simp only [addrFromUrl, ipAddrFromStr?, ipv4FromStr?_repr ha' hb' hc' hd']
    rfl
  · have hdisp : PaAddr.display (.Utp ⟨.v4 a b c d, p⟩) =
        ⟨'u' :: 't' :: 'p' :: ':' :: '/' :: '/' ::
          (ipv4Repr a b c d ++ ':' :: natRepr p)⟩ := rfl
    rw [PaAddr.fromStr, hdisp, string_mk_data, urlParse?_scheme_utp hauth]
    simp only [addrFromUrl, ipAddrFromStr?, ipv4FromStr?_repr ha' hb' hc' hd']
    rfl

/-- Witness for the amended claim C3 at the address of the repository's own
round-trip test. -/
theorem claim_C3_v4_roundtrip_witness :
    ((127 : Nat) < 256 ∧ (0 : Nat) < 256 ∧ (0 : Nat) < 256 ∧ (1 : Nat) < 256 ∧
      (45666 : Nat) < 65536)
    ∧ (PaAddr.fromStr (PaAddr.display (.Tcp ⟨.v4 127 0 0 1, 45666⟩)) =
          .ok (.Tcp ⟨.v4 127 0 0 1, 45666⟩)
        ∧ PaAddr.fromStr (PaAddr.display (.Utp ⟨.v4 127 0 0 1, 45666⟩)) =
            .ok (.Utp ⟨.v4 127 0 0 1, 45666⟩)) :=
  ⟨by decide, claim_C3_v4_roundtrip 127 0 0 1 45666 (by decide) (by decide) (by decide)
    (by decide) (by decide)⟩

/-- Counterexample to claim C3 as frozen: the valid tcp-tagged IPv6 loopback
address formats to `tcp://[::1]:80`, whose parse fails with `MalformedHost` —
the url host keeps its brackets and the IP parser rejects them — so parsing
the formatted text does not return the original address. -/
theorem claim_C3_counterexample :
    (PaAddr.Tcp ⟨.v6 [0, 0, 0, 0, 0, 0, 0, 1], 80⟩).Valid
    ∧ PaAddr.fromStr (PaAddr.display (.Tcp ⟨.v6 [0, 0, 0, 0, 0, 0, 0, 1], 80⟩)) ≠
        .ok (.Tcp ⟨.v6 [0, 0, 0, 0, 0, 0, 0, 1], 80⟩) := by
  constructor
  · refine ⟨⟨rfl, ?_⟩, by norm_num⟩
    decide
  · intro h
    have hres : PaAddr.fromStr (PaAddr.display (.Tcp ⟨.v6 [0, 0, 0, 0, 0, 0, 0, 1], 80⟩)) =
        .error .MalformedHost := rfl
    exact Except.noConfusion (hres.symm.trans h)

/-! ## Handshaker claims (C5, C6, C7, C8, C10) -/

theorem validate_ok_uid {UID : Type} [DecidableEq UID] [ToString UID]
    {expected_uid : UID} {nh : NameHash} {req : ConnectRequest UID}
    (h : validate_connect_request expected_uid nh req = .ok ()) :
    req.uid = expected_uid := by
  by_cases h1 : req.uid = expected_uid
  · exact h1
  · rw [validate_connect_request, if_pos h1] at h
    exact Except.noConfusion h

theorem validate_error_shape {UID : Type} [DecidableEq UID] [ToString UID]
    {expected_uid : UID} {nh : NameHash} {req : ConnectRequest UID}
    {e : SingleConnectionError}
    (h : validate_connect_request expected_uid nh req = .error e) :
    (∃ s1 s2, e = .InvalidUid s1 s2) ∨ ∃ n, e = .InvalidNameHash n := by
  unfold validate_connect_request at h
  by_cases h1 : req.uid ≠ expected_uid
  · rw [if_pos h1] at h
    exact .inl ⟨_, _, (Except.error.inj h).symm⟩
  · rw [if_neg h1] at h
    by_cases h2 : nh ≠ req.name_hash
    · rw [if_pos h2] at h
      exact .inr ⟨_, (Except.error.inj h).symm⟩
    · rw [if_neg h2] at h
      exact Except.noConfusion h

/-- Claim C5: the outgoing handshaker sends exactly the local request (and
nothing else) on each raw connection, awaits at most one reply (exactly one
once the send succeeded), and maps the reply as claimed: connection closed
with no reply is `ConnectionDropped`; a connect-kind reply goes through the
validator, success yielding the channel with the received uid and failure
surfacing the validator's error for this attempt only; any other message kind
is `UnexpectedMessage`. -/
theorem claim_C5 {UID : Type} [DecidableEq UID] [ToString UID]
    (our_connect_request : ConnectRequest UID) (their_id : UID) (conn : RawConn UID) :
    ((handshakeOutgoingOne our_connect_request their_id conn).2.sent =
        [.Connect our_connect_request]
      ∧ (handshakeOutgoingOne our_connect_request their_id conn).2.receives =
          (match conn.sendOutcome with
           | .ok _ => 1
           | .error _ => 0))
    ∧ (conn.sendOutcome = .ok () → conn.recvOutcome = .ok none →
        (handshakeOutgoingOne our_connect_request their_id conn).1 =
          .error .ConnectionDropped)
    ∧ (∀ req, conn.sendOutcome = .ok () → conn.recvOutcome = .ok (some (.Connect req)) →
        (handshakeOutgoingOne our_connect_request their_id conn).1 =
          (validate_connect_request their_id our_connect_request.name_hash req).map
            (fun _ => (conn.sockId, req.uid)))
    ∧ (conn.sendOutcome = .ok () → conn.recvOutcome = .ok (some .OtherKind) →
        (handshakeOutgoingOne our_connect_request their_id conn).1 =
          .error .UnexpectedMessage) := by
  obtain ⟨sid, so, ro⟩ := conn
  refine ⟨⟨?_, ?_⟩, ?_, ?_, ?_⟩
  · cases so with
    | error e => rfl
    | ok u =>
      cases ro with
      | error e => rfl
      | ok m =>
        cases m with
        | none => rfl
        | some msg =>
          cases msg with
          | OtherKind => rfl
          | Connect req =>
            cases hv : validate_connect_request their_id our_connect_request.name_hash req <;>
              simp [handshakeOutgoingOne, hv]
  · cases so with
    | error e => rfl
    | ok u =>
      cases ro with
      | error e => rfl
      | ok m =>
        cases m with
        | none => rfl
        | some msg =>
          cases msg with
          | OtherKind => rfl
          | Connect req =>
            cases hv : validate_connect_request their_id our_connect_request.name_hash req <;>
              simp [handshakeOutgoingOne, hv]
  · intro hso hro
    cases hso
    cases hro
    rfl
  · intro req hso hro
    cases hso
    cases hro
    cases hv : validate_connect_request their_id our_connect_request.name_hash req <;>
      simp [handshakeOutgoingOne, hv, Except.map]
  · intro hso hro
    cases hso
    cases hro
    rfl

/-- Witness for claim C5: a connection that closes with no reply fails with
`ConnectionDropped`. -/
theorem claim_C5_witness :
    ((⟨3, .ok (), .ok none⟩ : RawConn Nat).sendOutcome = .ok ()
      ∧ (⟨3, .ok (), .ok none⟩ : RawConn Nat).recvOutcome = .ok none)
    ∧ (handshakeOutgoingOne (⟨1, 2⟩ : ConnectRequest Nat) 7 ⟨3, .ok (), .ok none⟩).1 =
        .error .ConnectionDropped :=
  ⟨⟨rfl, rfl⟩, (claim_C5 ⟨1, 2⟩ 7 ⟨3, .ok (), .ok none⟩).2.1 rfl rfl⟩

/-- Claim C6: the incoming handshaker validates the embedded request first;
on failure it sends nothing and surfaces the validator's error; on success it
sends exactly one reply — the local request — and yields the channel with the
expected remote id, a reply-send failure mapping to a `Socket` error. -/
theorem claim_C6 {UID : Type} [DecidableEq UID] [ToString UID]
    (our_connect_request : ConnectRequest UID) (their_id : UID) (conn : IncomingConn UID) :
    (∀ e, validate_connect_request their_id our_connect_request.name_hash conn.request =
        .error e →
      handshakeIncomingOne our_connect_request their_id conn = (.error e, []))
    ∧ (validate_connect_request their_id our_connect_request.name_hash conn.request =
        .ok () →
      (handshakeIncomingOne our_connect_request their_id conn).2 =
          [.Connect our_connect_request]
        ∧ (handshakeIncomingOne our_connect_request their_id conn).1 =
            (match conn.replySendOutcome with
             | .error e => .error (.Socket e)
             | .ok _ => .ok (conn.sockId, their_id))) := by
  constructor
  · intro e he
    simp [handshakeIncomingOne, he]
  · intro hok
    cases hr : conn.replySendOutcome <;> simp [handshakeIncomingOne, hok, hr]

/-- Witness for claim C6: a validly-addressed incoming handshake is replied
to with the local request and yields the expected id. -/
theorem claim_C6_witness :
    validate_connect_request 7 2 (⟨7, 2⟩ : ConnectRequest Nat) = .ok ()
    ∧ ((handshakeIncomingOne (⟨1, 2⟩ : ConnectRequest Nat) 7 ⟨9, ⟨7, 2⟩, .ok ()⟩).2 =
        [.Connect ⟨1, 2⟩]
      ∧ (handshakeIncomingOne (⟨1, 2⟩ : ConnectRequest Nat) 7 ⟨9, ⟨7, 2⟩, .ok ()⟩).1 =
          (match (⟨9, ⟨7, 2⟩, .ok ()⟩ : IncomingConn Nat).replySendOutcome with
           | .error e => .error (.Socket e)
           | .ok _ => .ok ((⟨9, ⟨7, 2⟩, .ok ()⟩ : IncomingConn Nat).sockId, 7))) :=
  ⟨rfl, (claim_C6 ⟨1, 2⟩ 7 ⟨9, ⟨7, 2⟩, .ok ()⟩).2 rfl⟩

/-- Claim C7: with either side's rendezvous input absent, the rendezvous
contributor never completes and sends nothing; with both present it sends
exactly the remote metadata over the relay, a send failure yields
`DeadChannel`, a cancelled result receiver yields `DeadChannel`, and the
receiver's payload — the NAT-traversal protocol's own failure or the pierced
connection — is surfaced as is. -/
theorem claim_C7 {UID : Type} [DecidableEq UID] [ToString UID]
    (our_conn_info : Option (P2pConnectionInfo UID)) (their_conn_info : Option (List Nat)) :
    ((our_conn_info = none ∨ their_conn_info = none) →
      connect_p2p our_conn_info their_conn_info = .pending
      ∧ connectP2pSends our_conn_info their_conn_info = [])
    ∧ (∀ info raw_info, our_conn_info = some info → their_conn_info = some raw_info →
        connectP2pSends our_conn_info their_conn_info = [raw_info]
        ∧ (info.sendOutcome = .error () →
            connect_p2p our_conn_info their_conn_info = .ready (.error .DeadChannel))
        ∧ (info.sendOutcome = .ok () → info.connRxOutcome = .error () →
            connect_p2p our_conn_info their_conn_info = .ready (.error .DeadChannel))
        ∧ (∀ res, info.sendOutcome = .ok () → info.connRxOutcome = .ok res →
            connect_p2p our_conn_info their_conn_info = .ready res)) := by
  constructor
  · intro h
    rcases h with h | h <;> subst h
    · exact ⟨rfl, rfl⟩
    · cases our_conn_info <;> exact ⟨rfl, rfl⟩
  · intro info raw_info hour htheir
    subst hour
    subst htheir
    refine ⟨rfl, ?_, ?_, ?_⟩
    · intro hs
      simp [connect_p2p, hs]
    · intro hs hr
      simp [connect_p2p, hs, hr]
    · intro res hs hr
      simp [connect_p2p, hs, hr]

/-- Witness for claim C7: with rendezvous info on both sides and a live
relay, the receiver's payload is surfaced as is. -/
theorem claim_C7_witness :
    (some (⟨.ok (), .ok (.error .DeadChannel)⟩ : P2pConnectionInfo Nat) =
        some (⟨.ok (), .ok (.error .DeadChannel)⟩ : P2pConnectionInfo Nat)
      ∧ some [2, 3] = some [2, 3])
    ∧ (connectP2pSends (some (⟨.ok (), .ok (.error .DeadChannel)⟩ : P2pConnectionInfo Nat))
          (some [2, 3]) = [[2, 3]]
      ∧ connect_p2p (some (⟨.ok (), .ok (.error .DeadChannel)⟩ : P2pConnectionInfo Nat))
          (some [2, 3]) = .ready (.error .DeadChannel)) := by
  have h := (claim_C7 (some (⟨.ok (), .ok (.error .DeadChannel)⟩ : P2pConnectionInfo Nat))
    (some [2, 3])).2 ⟨.ok (), .ok (.error .DeadChannel)⟩ [2, 3] rfl rfl
  exact ⟨⟨rfl, rfl⟩, h.1, h.2.2.2 (.error .DeadChannel) rfl rfl⟩

/-- Claim C8: the rendezvous setup task publishes the mapped protocol outcome
exactly once on its oneshot channel, and completes successfully whether or
not the consumer is still there — a failed publish is swallowed. -/
theorem claim_C8 (protocol_outcome : Except RendezvousErr Nat) (receiver_alive : Bool) :
    (start_rendezvous_connect protocol_outcome receiver_alive).1 =
      [protocol_outcome.mapError SingleConnectionError.RendezvousConnect]
    ∧ (start_rendezvous_connect protocol_outcome receiver_alive).2 = .ok () := by
  cases receiver_alive <;> exact ⟨rfl, rfl⟩

/-- Claim C10: every success either handshaker yields carries exactly the
expected remote id — directly on the incoming path, and through the
validator's uid check on the outgoing path. -/
theorem claim_C10 {UID : Type} [DecidableEq UID] [ToString UID]
    (our_connect_request : ConnectRequest UID) (their_id : UID)
    (inc : IncomingConn UID) (out : RawConn UID) :
    (∀ s u, (handshakeIncomingOne our_connect_request their_id inc).1 = .ok (s, u) →
      u = their_id)
    ∧ (∀ s u, (handshakeOutgoingOne our_connect_request their_id out).1 = .ok (s, u) →
      u = their_id) := by
  constructor
  · intro s u h
    unfold handshakeIncomingOne at h
    cases hv : validate_connect_request their_id our_connect_request.name_hash inc.request with
    | error e => rw [hv] at h; exact Except.noConfusion h
    | ok _ =>
      rw [hv] at h
      cases hr : inc.replySendOutcome with
      | error e => rw [hr] at h; exact Except.noConfusion h
      | ok _ =>
        rw [hr] at h
        exact (Prod.mk.inj (Except.ok.inj h)).2.symm
  · intro s u h
    obtain ⟨sid, so, ro⟩ := out
    cases so with
    | error e => exact Except.noConfusion h
    | ok _ =>
      cases ro with
      | error e => exact Except.noConfusion h
      | ok m =>
        cases m with
        | none => exact Except.noConfusion h
        | some msg =>
          cases msg with
          | OtherKind => exact Except.noConfusion h
          | Connect req =>
            simp only [handshakeOutgoingOne] at h
            cases hv : validate_connect_request their_id our_connect_request.name_hash req with
            | error e => rw [hv] at h; exact Except.noConfusion h
            | ok _ =>
              rw [hv] at h
              have huid : req.uid = their_id := validate_ok_uid hv
              rw [← huid]
              exact (Prod.mk.inj (Except.ok.inj h)).2.symm

/-- Witness for claim C10 on both handshaker paths at a concrete success. -/
theorem claim_C10_witness :
    ((handshakeIncomingOne (⟨1, 2⟩ : ConnectRequest Nat) 7 ⟨9, ⟨7, 2⟩, .ok ()⟩).1 =
        .ok (9, 7) ∧
      (handshakeOutgoingOne (⟨1, 2⟩ : ConnectRequest Nat) 7
          ⟨3, .ok (), .ok (some (.Connect ⟨7, 2⟩))⟩).1 = .ok (3, 7))
    ∧ ((7 : Nat) = 7 ∧ (7 : Nat) = 7) :=
  ⟨⟨rfl, rfl⟩,
    (claim_C10 (⟨1, 2⟩ : ConnectRequest Nat) 7 ⟨9, ⟨7, 2⟩, .ok ()⟩
      ⟨3, .ok (), .ok (some (.Connect ⟨7, 2⟩))⟩).1 9 7 rfl,
    (claim_C10 (⟨1, 2⟩ : ConnectRequest Nat) 7 ⟨9, ⟨7, 2⟩, .ok ()⟩
      ⟨3, .ok (), .ok (some (.Connect ⟨7, 2⟩))⟩).2 3 7 rfl⟩

/-! ## Stream lemmas for the race (C4, C9) -/

theorem selectStream_nil_right {α : Type} (bs : List Bool) (xs : List α) :
    selectStream bs xs [] = xs := by
  cases bs with
  | nil => cases xs <;> rfl
  | cons b bs => cases b <;> cases xs <;> rfl

theorem selectStream_perm {α : Type} :
    ∀ (bs : List Bool) (xs ys : List α), (selectStream bs xs ys).Perm (xs ++ ys) := by
  intro bs
  induction bs with
  | nil =>
    intro xs ys
    cases xs with
    | nil => simp [selectStream]
    | cons x xs =>
      cases ys with
      | nil => simp [selectStream]
      | cons y ys => simp [selectStream]
  | cons b bs ih =>
    intro xs ys
    cases xs with
    | nil => simp [selectStream]
    | cons x xs =>
      cases ys with
      | nil => simp [selectStream]
      | cons y ys =>
        cases b with
        | true => exact (ih xs (y :: ys)).cons x
        | false =>
          refine ((ih (x :: xs) ys).cons y).trans ?_
          exact List.perm_middle.symm

theorem first_ok_map_error {E A : Type} (es : List E) :
    first_ok (es.map (Except.error : E → Except E A)) = .error es := by
  induction es with
  | nil => rfl
  | cons e es ih => simp [first_ok, ih]

theorem first_ok_error_mem {E A : Type} :
    ∀ {l : List (Except E A)} {es : List E},
      first_ok l = .error es → ∀ e ∈ es, Except.error e ∈ l := by
  intro l
  induction l with
  | nil =>
    intro es h e he
    have hnil : ([] : List E) = es := Except.error.inj h
    subst hnil
    exact absurd he (List.not_mem_nil e)
  | cons x l ih =>
    intro es h e he
    cases x with
    | ok a => exact Except.noConfusion h
    | error e0 =>
      cases hrec : first_ok l with
      | ok a =>
        have hh : first_ok (Except.error e0 :: l) = .ok a := by simp [first_ok, hrec]
        rw [hh] at h
        exact Except.noConfusion h
      | error es' =>
        have hh : first_ok (Except.error e0 :: l) = .error (e0 :: es') := by
          simp [first_ok, hrec]
        rw [hh] at h
        have hcons : e0 :: es' = es := Except.error.inj h
        subst hcons
        rcases List.mem_cons.mp he with rfl | hmem
        · exact List.mem_cons_self _ _
        · exact List.mem_cons_of_mem _ (ih hrec e hmem)

theorem handshakeOutgoingOne_ne_timedOut {UID : Type} [DecidableEq UID] [ToString UID]
    (our_connect_request : ConnectRequest UID) (their_id : UID) (conn : RawConn UID) :
    (handshakeOutgoingOne our_connect_request their_id conn).1 ≠
      .error .TimedOut := by
  intro h
  obtain ⟨sid, so, ro⟩ := conn
  cases so with
  | error e0 => exact SingleConnectionError.noConfusion (Except.error.inj h)
  | ok u =>
    cases ro with
    | error e0 => exact SingleConnectionError.noConfusion (Except.error.inj h)
    | ok m =>
      cases m with
      | none => exact SingleConnectionError.noConfusion (Except.error.inj h)
      | some msg =>
        cases msg with
        | OtherKind => exact SingleConnectionError.noConfusion (Except.error.inj h)
        | Connect r =>
          simp only [handshakeOutgoingOne] at h
          cases hv : validate_connect_request their_id our_connect_request.name_hash r with
          | ok _ => rw [hv] at h; exact Except.noConfusion h
          | error ev =>
            rw [hv] at h
            have hev := Except.error.inj h
            rcases validate_error_shape hv with ⟨s1, s2, rfl⟩ | ⟨n, rfl⟩ <;>
              exact SingleConnectionError.noConfusion hev

theorem handshakeIncomingOne_ne_timedOut {UID : Type} [DecidableEq UID] [ToString UID]
    (our_connect_request : ConnectRequest UID) (their_id : UID) (conn : IncomingConn UID) :
    (handshakeIncomingOne our_connect_request their_id conn).1 ≠
      .error .TimedOut := by
  intro h
  unfold handshakeIncomingOne at h
  cases hv : validate_connect_request their_id our_connect_request.name_hash conn.request with
  | error ev =>
    rw [hv] at h
    have hev := Except.error.inj h
    rcases validate_error_shape hv with ⟨s1, s2, rfl⟩ | ⟨n, rfl⟩ <;>
      exact SingleConnectionError.noConfusion hev
  | ok _ =>
    rw [hv] at h
    cases hr : conn.replySendOutcome with
    | error e0 =>
      rw [hr] at h
      exact SingleConnectionError.noConfusion (Except.error.inj h)
    | ok _ => rw [hr] at h; exact Except.noConfusion h

theorem timedOut_not_mem_merged {UID : Type} [DecidableEq UID] [ToString UID]
    (name_hash : NameHash) (our_info : PrivConnectionInfo UID)
    (their_info : PubConnectionInfo UID) (peer_rx : List (IncomingConn UID))
    (env : ConnectEnv UID)
    (hrx : ∀ info e, our_info.p2p_conn_info = some info →
      info.connRxOutcome = .ok (.error e) → ∃ m, e = .RendezvousConnect m) :
    Except.error SingleConnectionError.TimedOut ∉
      mergedAttempts name_hash our_info their_info peer_rx env := by
  intro hmem
  unfold mergedAttempts at hmem
  rw [(selectStream_perm _ _ _).mem_iff, List.mem_append] at hmem
  rcases hmem with hmem | hmem
  · obtain ⟨c, hc, heq⟩ := List.mem_map.mp hmem
    cases c with
    | ok conn => exact handshakeOutgoingOne_ne_timedOut _ _ conn heq
    | error e =>
      have he : e = .TimedOut := Except.error.inj heq
      subst he
      rw [(selectStream_perm _ _ _).mem_iff, List.mem_append] at hc
      rcases hc with hc | hc
      · obtain ⟨a, _, heq2⟩ := List.mem_map.mp hc
        cases hao : env.directOutcome a with
        | ok rc => rw [hao] at heq2; exact Except.noConfusion heq2
        | error e0 =>
          rw [hao] at heq2
          exact SingleConnectionError.noConfusion (Except.error.inj heq2)
      · cases hour : our_info.p2p_conn_info with
        | none => rw [hour] at hc; simp [connect_p2p, futureIntoStream] at hc
        | some info =>
          cases htheir : their_info.p2p_conn_info with
          | none => rw [hour, htheir] at hc; simp [connect_p2p, futureIntoStream] at hc
          | some raw =>
            rw [hour, htheir] at hc
            cases hs : info.sendOutcome with
            | error u =>
              simp only [connect_p2p, hs, futureIntoStream, List.mem_singleton] at hc
              exact SingleConnectionError.noConfusion (Except.error.inj hc)
            | ok u =>
              cases hcr : info.connRxOutcome with
              | error u2 =>
                simp only [connect_p2p, hs, hcr, futureIntoStream, List.mem_singleton] at hc
                exact SingleConnectionError.noConfusion (Except.error.inj hc)
              | ok res =>
                simp only [connect_p2p, hs, hcr, futureIntoStream, List.mem_singleton] at hc
                obtain ⟨m, hm⟩ := hrx info .TimedOut hour (by rw [hcr, ← hc])
                exact SingleConnectionError.noConfusion hm
  · obtain ⟨c, _, heq⟩ := List.mem_map.mp hmem
    exact handshakeIncomingOne_ne_timedOut _ _ c heq

/-! ## Claim C4 and C9 theorems -/

/-- Claim C4: when every attempt in the merged stream fails, `connect`
returns `AllConnectionsFailed` carrying exactly the observed per-attempt
errors in completion order; and with no rendezvous metadata and no incoming
handshake that is one error per attempted direct address. -/
theorem claim_C4 {UID : Type} [DecidableEq UID] [ToString UID]
    (name_hash : NameHash) (our_info : PrivConnectionInfo UID)
    (their_info : PubConnectionInfo UID) (peer_rx : List (IncomingConn UID))
    (env : ConnectEnv UID) (hne : ¬ our_info.id = their_info.id)
    (es : List SingleConnectionError)
    (hall : mergedAttempts name_hash our_info their_info peer_rx env =
      es.map Except.error) :
    connect name_hash our_info their_info peer_rx env =
      .error (.AllConnectionsFailed es)
    ∧ (their_info.p2p_conn_info = none → peer_rx = [] →
        env.directOrder.Perm their_info.for_direct →
        es.length = their_info.for_direct.length) := by
  constructor
  · rw [connect, if_neg hne, hall, first_ok_map_error]
  · intro hp2p hrx hperm
    have hpend : connect_p2p our_info.p2p_conn_info their_info.p2p_conn_info =
        (.pending : FutureResult SingleConnectionError (RawConn UID)) := by
      rw [hp2p]
      cases our_info.p2p_conn_info <;> rfl
    have hm : mergedAttempts name_hash our_info their_info peer_rx env =
        handshake_outgoing_connections
          (connect_directly env.directOrder env.directOutcome)
          ⟨our_info.id, name_hash⟩ their_info.id := by
      unfold mergedAttempts
      rw [hrx, hpend]
      simp only [futureIntoStream, handshake_incoming_connections, List.map_nil,
        selectStream_nil_right]
    have hlen : es.length = env.directOrder.length := by
      have h1 : (es.map (Except.error :
          SingleConnectionError → Except SingleConnectionError (Nat × UID))).length =
          es.length := List.length_map _ _
      rw [← hall, hm] at h1
      simp only [handshake_outgoing_connections, connect_directly, List.length_map] at h1
      exact h1.symm
    rw [hlen, hperm.length_eq]

/-- Witness for claim C4: one unreachable direct address, no rendezvous, no
incoming handshake. -/
theorem claim_C4_witness :
    ((1 : Nat) ≠ 2
      ∧ mergedAttempts 0 (⟨1, none⟩ : PrivConnectionInfo Nat)
          ⟨2, [⟨.v4 1 2 3 4, 5⟩], none⟩ []
          ⟨[⟨.v4 1 2 3 4, 5⟩], fun _ => .error 7, [], [], fun s u => .ok (s, u)⟩ =
        [SingleConnectionError.Io 7].map Except.error)
    ∧ (connect 0 (⟨1, none⟩ : PrivConnectionInfo Nat) ⟨2, [⟨.v4 1 2 3 4, 5⟩], none⟩ []
          ⟨[⟨.v4 1 2 3 4, 5⟩], fun _ => .error 7, [], [], fun s u => .ok (s, u)⟩ =
        .error (.AllConnectionsFailed [.Io 7])
      ∧ ((⟨2, [⟨.v4 1 2 3 4, 5⟩], none⟩ : PubConnectionInfo Nat).p2p_conn_info = none →
          ([] : List (IncomingConn Nat)) = [] →
          List.Perm [⟨.v4 1 2 3 4, 5⟩]
            (⟨2, [⟨.v4 1 2 3 4, 5⟩], none⟩ : PubConnectionInfo Nat).for_direct →
          ([SingleConnectionError.Io 7]).length =
            (⟨2, [⟨.v4 1 2 3 4, 5⟩], none⟩ : PubConnectionInfo Nat).for_direct.length)) :=
  ⟨⟨by decide, rfl⟩,
    claim_C4 0 ⟨1, none⟩ ⟨2, [⟨.v4 1 2 3 4, 5⟩], none⟩ []
      ⟨[⟨.v4 1 2 3 4, 5⟩], fun _ => .error 7, [], [], fun s u => .ok (s, u)⟩
      (by decide) [.Io 7] rfl⟩

/-- Claim C9: no run of `connect` produces a timeout: the result is never
`ConnectError.TimedOut` and no collected per-attempt error is
`SingleConnectionError.TimedOut`. The only external value that could inject a
`TimedOut` is the rendezvous oneshot payload, and the setup task publishes
only `RendezvousConnect`-wrapped failures (claim C8's theorem shows the
published form), which the hypothesis records. The declared `TIMEOUT_SEC`
constant is referenced nowhere in the pipeline, as the embedding reflects. -/
theorem claim_C9 {UID : Type} [DecidableEq UID] [ToString UID]
    (name_hash : NameHash) (our_info : PrivConnectionInfo UID)
    (their_info : PubConnectionInfo UID) (peer_rx : List (IncomingConn UID))
    (env : ConnectEnv UID)
    (hrx : ∀ info e, our_info.p2p_conn_info = some info →
      info.connRxOutcome = .ok (.error e) → ∃ m, e = .RendezvousConnect m) :
    connect name_hash our_info their_info peer_rx env ≠ .error .TimedOut
    ∧ ∀ errs, connect name_hash our_info their_info peer_rx env =
        .error (.AllConnectionsFailed errs) →
      SingleConnectionError.TimedOut ∉ errs := by
  by_cases hself : our_info.id = their_info.id
  · rw [connect, if_pos hself]
    constructor
    · intro h
      exact ConnectError.noConfusion (Except.error.inj h)
    · intro errs h
      exact ConnectError.noConfusion (Except.error.inj h)
  · rw [connect, if_neg hself]
    cases hfo : first_ok (mergedAttempts name_hash our_info their_info peer_rx env) with
    | ok p =>
      obtain ⟨sock, uid⟩ := p
      cases hpc : env.fromHandshakenSocket sock uid with
      | ok pr =>
        refine ⟨?_, ?_⟩
        · intro h
          have h' : Except.mapError ConnectError.Io (env.fromHandshakenSocket sock uid) =
              Except.error ConnectError.TimedOut := h
          rw [hpc] at h'
          exact Except.noConfusion h'
        · intro errs h
          have h' : Except.mapError ConnectError.Io (env.fromHandshakenSocket sock uid) =
              Except.error (ConnectError.AllConnectionsFailed errs) := h
          rw [hpc] at h'
          exact absurd h' (by intro hh; exact Except.noConfusion hh)
      | error e =>
        refine ⟨?_, ?_⟩
        · intro h
          have h' : Except.mapError ConnectError.Io (env.fromHandshakenSocket sock uid) =
              Except.error ConnectError.TimedOut := h
          rw [hpc] at h'
          exact ConnectError.noConfusion (Except.error.inj h')
        · intro errs h
          have h' : Except.mapError ConnectError.Io (env.fromHandshakenSocket sock uid) =
              Except.error (ConnectError.AllConnectionsFailed errs) := h
          rw [hpc] at h'
          exact ConnectError.noConfusion (Except.error.inj h')
    | error errs0 =>
      refine ⟨?_, ?_⟩
      · intro h
        have h' : (Except.error (ConnectError.AllConnectionsFailed errs0) :
            Except ConnectError (Nat × UID)) = Except.error ConnectError.TimedOut := h
        exact ConnectError.noConfusion (Except.error.inj h')
      · intro errs h hmem
        have h' : (Except.error (ConnectError.AllConnectionsFailed errs0) :
            Except ConnectError (Nat × UID)) =
            Except.error (ConnectError.AllConnectionsFailed errs) := h
        have herrs : errs0 = errs :=
          ConnectError.AllConnectionsFailed.inj (Except.error.inj h')
        subst herrs
        exact timedOut_not_mem_merged name_hash our_info their_info peer_rx env hrx
          (first_ok_error_mem hfo .TimedOut hmem)

/-- Witness for claim C9 at a concrete call with no rendezvous info, where
the hypothesis about the rendezvous receiver holds vacuously. -/
theorem claim_C9_witness :
    (∀ info e, (⟨1, none⟩ : PrivConnectionInfo Nat).p2p_conn_info = some info →
      info.connRxOutcome = .ok (.error e) → ∃ m, e = .RendezvousConnect m)
    ∧ (connect 0 (⟨1, none⟩ : PrivConnectionInfo Nat) ⟨2, [], none⟩ []
          ⟨[], fun _ => .error 7, [], [], fun s u => .ok (s, u)⟩ ≠ .error .TimedOut
      ∧ ∀ errs, connect 0 (⟨1, none⟩ : PrivConnectionInfo Nat) ⟨2, [], none⟩ []
            ⟨[], fun _ => .error 7, [], [], fun s u => .ok (s, u)⟩ =
          .error (.AllConnectionsFailed errs) →
        SingleConnectionError.TimedOut ∉ errs) :=
  ⟨fun _ _ hh => absurd hh (by intro h; exact Option.noConfusion h),
    claim_C9 0 ⟨1, none⟩ ⟨2, [], none⟩ []
      ⟨[], fun _ => .error 7, [], [], fun s u => .ok (s, u)⟩
      (fun _ _ hh => absurd hh (by intro h; exact Option.noConfusion h))⟩

end Crust
